import Mathlib

/-!
Verification of the stationarity-testing and detrending kernel described by
the repository's specification, against the code of the stationarity
notebook (`adf_test`, `kpss_test`, the shift-based first-difference cell,
the dropna re-test cells, and the Case 1-4 decision table).

The notebook delegates the numeric ADF/KPSS routines to library code that
is not part of the sampled sources; those routines, the Classifier, the
general-order Differencer and the iterated pipeline are modelled from the
specification's words, as marked on each definition.  Everything that does
appear in the sampled sources (the wrapper functions and the pandas
shift / subtract / dropna differencing cell) is embedded directly.
-/

namespace StatKernel

/-- An observation of a Series: a finite real value (modelled as a
rational), or one of the non-finite IEEE values (NaN, +inf, -inf) that the
specification's `NonFiniteValueError` guards against. -/
inductive Obs where
  | val : ℚ → Obs
  | nan : Obs
  | posInf : Obs
  | negInf : Obs
deriving DecidableEq

/-- The finite value carried by an observation, if any. -/
def Obs.finite? : Obs → Option ℚ
  | .val q => some q
  | _ => none

/-- A Series is an ordered sequence of observations indexed by position. -/
def Series : Type := List Obs

/-- `true` iff every observation of the series is a finite value. -/
def allFinite (s : List Obs) : Bool :=
  s.all (fun o => (Obs.finite? o).isSome)

/-- The finite values of a series, in order. -/
def finiteVals (s : List Obs) : List ℚ :=
  s.filterMap Obs.finite?

/-- Error kinds of the kernel (spec section 7): a series shorter than the
test requires, or a series containing NaN / infinity. -/
inductive KernelError where
  | insufficientData : KernelError
  | nonFiniteValue : KernelError
deriving DecidableEq

/-- The simple first difference, embedding the notebook cell
`sunspots["SUNACTIVITY"] - sunspots["SUNACTIVITY"].shift(1)` after the
undefined leading entry is dropped: element `i` of the result is
`original[i+1] - original[i]`, and the result is one element shorter. -/
def diff1 : List ℚ → List ℚ
  | a :: b :: t => (b - a) :: diff1 (b :: t)
  | _ => []

/-- Modelled from the spec: the order-`d` Differencer of section 4.3, the
first difference "applied recursively d times"; the sampled sources only
contain the `d = 1` shift-based cell. -/
def diffSeries : List ℚ → ℕ → List ℚ
  | xs, 0 => xs
  | xs, d + 1 => diffSeries (diff1 xs) d

/-- Modelled from the spec: cumulative summation starting from the first
original value, the inverse transform named by the round-trip property of
section 8 ("summing a first-differenced series with its first original
value reconstructs the original series"). -/
def undiff (first : ℚ) : List ℚ → List ℚ
  | [] => [first]
  | d :: ds => first :: undiff (first + d) ds

/-- TestResult (spec section 3): statistic, p-value, the mapping from
confidence level to critical value, and the number of lags used.  Being a
plain structure value, it is immutable once produced. -/
structure TestResult where
  statistic : ℚ
  p_value : ℚ
  critical_values : List (String × ℚ)
  lags_used : ℕ
deriving DecidableEq

/-- The four qualitative outcomes of spec section 3. -/
inductive StationarityVerdict where
  | Stationary : StationarityVerdict
  | NonStationary : StationarityVerdict
  | TrendStationary : StationarityVerdict
  | DifferenceStationary : StationarityVerdict
deriving DecidableEq

/-- Modelled from the spec: the Classifier of section 4.4.  It exists in
the sampled sources only as the markdown decision table (Cases 1-4 of the
stationarity notebook); its fixed table is: ADF rejects its unit-root null
when `p ≤ α`, KPSS rejects its stationarity null when `p ≤ α`, and the
four combinations give the four verdicts. -/
def classify (adf kpss : TestResult) (alpha : ℚ) : StationarityVerdict :=
  if adf.p_value ≤ alpha then
    if kpss.p_value ≤ alpha then .DifferenceStationary else .Stationary
  else
    if kpss.p_value ≤ alpha then .NonStationary else .TrendStationary

/-- Sum of squares of a list of rationals. -/
def sqSum (xs : List ℚ) : ℚ :=
  (xs.map (fun x => x * x)).sum

/-- Arithmetic mean (0 for the empty list, by rational division by 0). -/
def listMean (xs : List ℚ) : ℚ :=
  xs.sum / (xs.length : ℚ)

/-- The series recentred at its mean. -/
def demean (xs : List ℚ) : List ℚ :=
  xs.map (fun x => x - listMean xs)

/-- Partial sums S_1, ..., S_n of a list. -/
def cumSums (xs : List ℚ) : List ℚ :=
  (xs.scanl (· + ·) 0).tail

/-- Modelled from the spec: the ADF wander ratio, a surrogate for the
Dickey-Fuller regression statistic computed by the external `adfuller`
routine (absent from the sampled sources).  It compares the dispersion of
the levels to the dispersion of the first differences: a mean-reverting
(stationary) series keeps it small, a unit-root series lets the levels
wander and makes it large; a constant series gives exactly 0 (the
degenerate case of spec section 8). -/
def adfWander (xs : List ℚ) : ℚ :=
  sqSum (demean xs) / sqSum (diff1 xs)

/-- Modelled from the spec: the ADF p-value, mapping the wander ratio
monotonically into [0, 1); small ratio (strong mean reversion) gives a
small p-value, rejecting the unit-root null. -/
def adfPval (xs : List ℚ) : ℚ :=
  adfWander xs / (1 + adfWander xs)

/-- Modelled from the spec: the KPSS statistic, the classical normalized
sum of squared partial sums of the demeaned series; a level-stationary
series keeps it small, and a constant series gives exactly 0. -/
def kpssStat (xs : List ℚ) : ℚ :=
  sqSum (cumSums (demean xs)) / ((xs.length : ℚ) * sqSum (demean xs))

/-- Modelled from the spec: the KPSS p-value, mapping the statistic
monotonically into (0, 1]; a small statistic gives a large p-value, so the
stationarity null is not rejected. -/
def kpssPval (xs : List ℚ) : ℚ :=
  1 / (1 + kpssStat xs)

/-- The closed set of lag-selection criteria accepted by the underlying
ADF routine (`autolag`); the notebook wrapper always selects AIC. -/
inductive AutoLagCriterion where
  | AIC : AutoLagCriterion
  | BIC : AutoLagCriterion
  | tstat : AutoLagCriterion
deriving DecidableEq

/-- The closed set of KPSS regression specifications of spec section 4.2:
constant only, or constant plus trend. -/
inductive Regression where
  | c : Regression
  | ct : Regression
deriving DecidableEq

/-- The closed set of KPSS lag-selection rules (`nlags`). -/
inductive NLagsRule where
  | auto : NLagsRule
  | legacy : NLagsRule
  | fixed : ℕ → NLagsRule
deriving DecidableEq

/-- Modelled from the spec: the number of lags chosen by automatic lag
selection, a deterministic function of the sample size (the information
criterion minimization itself is external to the sampled sources). -/
def autoLags (n : ℕ) : ℕ :=
  min 12 (n / 10)

/-- Modelled from the spec: the minimum series length required for the
chosen lag order (spec section 4.1: the test fails with
`InsufficientDataError` below it). -/
def minLengthFor (lags : ℕ) : ℕ :=
  lags + 3

/-- The ADF critical-value mapping at the 1%, 5% and 10% levels. -/
def adfCriticalValues : List (String × ℚ) :=
  [("1%", -343/100), ("5%", -286/100), ("10%", -257/100)]

/-- The KPSS critical-value mapping at the 1%, 5% and 10% levels. -/
def kpssCriticalValues : List (String × ℚ) :=
  [("1%", 739/1000), ("5%", 463/1000), ("10%", 347/1000)]

/-- Modelled from the spec: the underlying ADF routine of section 4.1
(`statsmodels.tsa.stattools.adfuller`, absent from the sampled sources).
Given a Series and a lag-selection criterion it validates length and
finiteness, then returns a TestResult built from the surrogate statistic;
null hypothesis: the series has a unit root. -/
def adfuller (s : List Obs) (autolag : Option AutoLagCriterion) :
    Except KernelError TestResult :=
  let lags := match autolag with
    | some _ => autoLags s.length
    | none => 0
  if s.length < minLengthFor lags then .error .insufficientData
  else if allFinite s then
    let xs := finiteVals s
    .ok { statistic := -(adfWander xs), p_value := adfPval xs,
          critical_values := adfCriticalValues, lags_used := lags }
  else .error .nonFiniteValue

/-- Modelled from the spec: the underlying KPSS routine of section 4.2
(`statsmodels.tsa.stattools.kpss`, absent from the sampled sources).
Given a Series, a regression specification and a lag-selection rule it
validates length and finiteness, then returns a TestResult built from the
surrogate statistic; null hypothesis: the series is (trend-)stationary. -/
def kpss (s : List Obs) (regression : Regression) (nlags : NLagsRule) :
    Except KernelError TestResult :=
  let lags := match nlags with
    | .auto => autoLags s.length
    | .legacy => autoLags s.length
    | .fixed k => k
  if s.length < minLengthFor lags then .error .insufficientData
  else if allFinite s then
    let xs := finiteVals s
    let stat := match regression with
      | .c => kpssStat xs
      | .ct => kpssStat (diff1 xs)
    .ok { statistic := stat, p_value := 1 / (1 + stat),
          critical_values := kpssCriticalValues, lags_used := lags }
  else .error .nonFiniteValue

/-- The arguments of one invocation of the underlying ADF routine. -/
structure AdfInvocation where
  timeseries : List Obs
  autolag : Option AutoLagCriterion
deriving DecidableEq

/-- The arguments of one invocation of the underlying KPSS routine. -/
structure KpssInvocation where
  timeseries : List Obs
  regression : Regression
  nlags : NLagsRule
deriving DecidableEq

/-- The invocation built by the notebook wrapper `adf_test`: the caller's
series with the lag selection fixed to AIC. -/
def adfInvocation (timeseries : List Obs) : AdfInvocation :=
  ⟨timeseries, some .AIC⟩

/-- The invocation built by the notebook wrapper `kpss_test`: the caller's
series with the regression fixed to constant-only and automatic lags. -/
def kpssInvocation (timeseries : List Obs) : KpssInvocation :=
  ⟨timeseries, .c, .auto⟩

/-- The notebook wrapper `adf_test`: invokes the ADF routine with the lag
selection fixed to AIC; the caller supplies only the series. -/
def adf_test (timeseries : List Obs) : Except KernelError TestResult :=
  adfuller (adfInvocation timeseries).timeseries (adfInvocation timeseries).autolag

/-- The notebook wrapper `kpss_test`: invokes the KPSS routine with the
regression fixed to constant-only and automatic lag selection; the caller
supplies only the series. -/
def kpss_test (timeseries : List Obs) : Except KernelError TestResult :=
  kpss (kpssInvocation timeseries).timeseries (kpssInvocation timeseries).regression
    (kpssInvocation timeseries).nlags

/-- pandas `Series.shift(1)` on a column with no missing values: the first
entry becomes undefined (NaN), every other entry takes the previous value,
and the last original value falls off; the length is preserved. -/
def shiftOne : List (Option ℚ) → List (Option ℚ)
  | [] => []
  | x :: xs => none :: (x :: xs).dropLast

/-- Elementwise subtraction of two aligned pandas columns: any undefined
operand makes the entry undefined. -/
def subEntry (a b : Option ℚ) : Option ℚ :=
  match a, b with
  | some x, some y => some (x - y)
  | _, _ => none

/-- Subtraction of two aligned columns of equal length. -/
def seriesSub (a b : List (Option ℚ)) : List (Option ℚ) :=
  List.zipWith subEntry a b

/-- pandas `dropna`: keep the defined entries, in order. -/
def dropna (s : List (Option ℚ)) : List ℚ :=
  s.filterMap id

/-- The notebook's differencing cell on a fully defined column `s`:
`s - s.shift(1)`, producing the `SUNACTIVITY_diff` column. -/
def pandasDiff (s : List ℚ) : List (Option ℚ) :=
  seriesSub (s.map some) (shiftOne (s.map some))

/-- The verdict the Classifier gives on the raw values of a series, using
the surrogate ADF and KPSS results (constant-only regression, automatic
lags, as fixed by the notebook wrappers). -/
def verdictOf (alpha : ℚ) (xs : List ℚ) : StationarityVerdict :=
  classify
    { statistic := -(adfWander xs), p_value := adfPval xs,
      critical_values := adfCriticalValues, lags_used := autoLags xs.length }
    { statistic := kpssStat xs, p_value := kpssPval xs,
      critical_values := kpssCriticalValues, lags_used := autoLags xs.length }
    alpha

/-- The two terminal states of the iterated pipeline (spec section 4.4):
a Stationary verdict was reached after some number of differencing passes,
or the iteration budget was used up. -/
inductive PipelineOutcome where
  | stationary : ℕ → PipelineOutcome
  | exhausted : PipelineOutcome
deriving DecidableEq

/-- Modelled from the spec: the iteration state machine of section 4.4
("iterate Differencer, the two tests and the Classifier until the verdict
is Stationary or a maximum iteration count is reached"); the sampled
sources perform one such pass by hand.  `k` counts the differencing passes
already taken, `fuel` is the remaining iteration budget. -/
def pipelineRun (alpha : ℚ) : ℕ → ℕ → List ℚ → PipelineOutcome
  | 0, _, _ => .exhausted
  | fuel + 1, k, xs =>
    if verdictOf alpha xs = .Stationary then .stationary k
    else pipelineRun alpha fuel (k + 1) (diff1 xs)

/-- The pipeline on a raw series with a maximum iteration count. -/
def pipeline (alpha : ℚ) (maxIter : ℕ) (xs : List ℚ) : PipelineOutcome :=
  pipelineRun alpha maxIter 0 xs

/-! ### Helper lemmas -/

theorem diff1_length : ∀ xs : List ℚ, (diff1 xs).length = xs.length - 1
  | [] => rfl
  | [_] => rfl
  | a :: b :: t => by
    have ih := diff1_length (b :: t)
    simp only [diff1, List.length_cons] at ih ⊢
    omega

theorem diff1_getD : ∀ (xs : List ℚ) (i : ℕ), i + 1 < xs.length →
    (diff1 xs).getD i 0 = xs.getD (i + 1) 0 - xs.getD i 0
  | [], i, h => by simp at h
  | [_], i, h => by simp at h
  | a :: b :: t, 0, _ => by simp [diff1]
  | a :: b :: t, i + 1, h => by
    have ih := diff1_getD (b :: t) i (by simpa using h)
    simpa [diff1] using ih

theorem diffSeries_length (xs : List ℚ) (d : ℕ) :
    (diffSeries xs d).length = xs.length - d := by
  induction d generalizing xs with
  | zero => simp [diffSeries]
  | succ e ih =>
    have h := ih (diff1 xs)
    rw [diffSeries, h, diff1_length]
    omega

/-! ### Claims about the Differencer -/

/-- C2 (amended): for every series and order `d` with `1 ≤ d < n`, the
Differencer returns a series of length `n - d`, obtained by applying the
first difference recursively `d` times, and for `d = 1` element `i` equals
`original[i+1] - original[i]`. -/
theorem differencer_contract (xs : List ℚ) (d : ℕ) (hd : 1 ≤ d)
    (hlt : d < xs.length) :
    (diffSeries xs d).length = xs.length - d ∧
    diffSeries xs d = diffSeries (diff1 xs) (d - 1) ∧
    (∀ i, i + 1 < xs.length →
      (diffSeries xs 1).getD i 0 = xs.getD (i + 1) 0 - xs.getD i 0) := by
  refine ⟨diffSeries_length xs d, ?_, ?_⟩
  · obtain ⟨e, rfl⟩ : ∃ e, d = e + 1 := ⟨d - 1, by omega⟩
    rfl
  · intro i hi
    have : diffSeries xs 1 = diff1 xs := rfl
    rw [this, diff1_getD xs i hi]

/-- Witness for C2's amended theorem at the concrete series [1, 4, 9, 16]
with d = 2 and i = 0. -/
theorem differencer_contract_witness :
    (diffSeries ([1, 4, 9, 16] : List ℚ) 2).length =
      ([1, 4, 9, 16] : List ℚ).length - 2 ∧
    diffSeries ([1, 4, 9, 16] : List ℚ) 2 =
      diffSeries (diff1 ([1, 4, 9, 16] : List ℚ)) 1 ∧
    (diffSeries ([1, 4, 9, 16] : List ℚ) 1).getD 0 0 =
      ([1, 4, 9, 16] : List ℚ).getD 1 0 - ([1, 4, 9, 16] : List ℚ).getD 0 0 := by
  have h := differencer_contract ([1, 4, 9, 16] : List ℚ) 2 (by decide)
    (by decide)
  exact ⟨h.1, h.2.1, h.2.2 0 (by decide)⟩

/-- C2 counterexample: at the series [0, 1, 3] with d = 2 the result is
[1], but the claimed element formula `original[i+d] - original[i+d-1]`
gives 3 - 1 = 2 at i = 0; the two differ. -/
theorem differencer_formula_counterexample :
    diffSeries ([0, 1, 3] : List ℚ) 2 = [1] ∧
    (diffSeries ([0, 1, 3] : List ℚ) 2).getD 0 0 ≠
      ([0, 1, 3] : List ℚ).getD 2 0 - ([0, 1, 3] : List ℚ).getD 1 0 := by
  have h1 : diffSeries ([0, 1, 3] : List ℚ) 2 = [1] := by
    norm_num [diffSeries, diff1]
  refine ⟨h1, ?_⟩
  rw [h1]
  norm_num [List.getD]

/-- C3: cumulatively summing the first-differenced series, starting from
the first original value, reconstructs any non-empty series exactly. -/
theorem roundtrip_undiff_diff1 : ∀ (x : ℚ) (xs : List ℚ),
    undiff x (diff1 (x :: xs)) = x :: xs
  | _, [] => rfl
  | x, b :: t => by
    have ih := roundtrip_undiff_diff1 b t
    have hx : x + (b - x) = b := by ring
    simp only [diff1, undiff, hx, ih]

/-! ### Claims about the Classifier -/

/-- C1: the Classifier follows the fixed four-row decision table relating
the two p-values to the significance threshold. -/
theorem classifier_table (ra rk : TestResult) (alpha : ℚ) :
    (alpha < ra.p_value → alpha < rk.p_value →
      classify ra rk alpha = .TrendStationary) ∧
    (ra.p_value ≤ alpha → alpha < rk.p_value →
      classify ra rk alpha = .Stationary) ∧
    (alpha < ra.p_value → rk.p_value ≤ alpha →
      classify ra rk alpha = .NonStationary) ∧
    (ra.p_value ≤ alpha → rk.p_value ≤ alpha →
      classify ra rk alpha = .DifferenceStationary) := by
  refine ⟨fun h1 h2 => ?_, fun h1 h2 => ?_, fun h1 h2 => ?_, fun h1 h2 => ?_⟩
  · simp [classify, not_le.mpr h1, not_le.mpr h2]
  · simp [classify, h1, not_le.mpr h2]
  · simp [classify, not_le.mpr h1, h2]
  · simp [classify, h1, h2]

/-- Witness for C1 at concrete results: ADF p = 1/100 ≤ 1/20 and KPSS
p = 1/2 > 1/20 give the verdict Stationary. -/
theorem classifier_table_witness :
    classify ⟨0, 1/100, [], 0⟩ ⟨0, 1/2, [], 0⟩ (1/20) = .Stationary :=
  (classifier_table ⟨0, 1/100, [], 0⟩ ⟨0, 1/2, [], 0⟩ (1/20)).2.1
    (by norm_num) (by norm_num)

/-- C6: the Classifier is deterministic; identical inputs across two
invocations yield the identical verdict. -/
theorem classifier_deterministic (a1 a2 k1 k2 : TestResult)
    (x1 x2 : ℚ) (ha : a1 = a2) (hk : k1 = k2) (hx : x1 = x2) :
    classify a1 k1 x1 = classify a2 k2 x2 := by
  subst ha; subst hk; subst hx; rfl

/-- Witness for C6 at concrete inputs. -/
theorem classifier_deterministic_witness :
    classify ⟨1, 3/10, [], 2⟩ ⟨2, 1/25, [], 1⟩ (1/20) =
      classify ⟨1, 3/10, [], 2⟩ ⟨2, 1/25, [], 1⟩ (1/20) :=
  classifier_deterministic ⟨1, 3/10, [], 2⟩ ⟨1, 3/10, [], 2⟩
    ⟨2, 1/25, [], 1⟩ ⟨2, 1/25, [], 1⟩ (1/20) (1/20) rfl rfl rfl

/-! ### Bounds on the surrogate statistics -/

theorem sqSum_nonneg (xs : List ℚ) : 0 ≤ sqSum xs := by
  apply List.sum_nonneg
  intro x hx
  simp only [List.mem_map] at hx
  obtain ⟨y, -, rfl⟩ := hx
  exact mul_self_nonneg y

theorem adfWander_nonneg (xs : List ℚ) : 0 ≤ adfWander xs :=
  div_nonneg (sqSum_nonneg _) (sqSum_nonneg _)

theorem adfPval_nonneg (xs : List ℚ) : 0 ≤ adfPval xs :=
  div_nonneg (adfWander_nonneg _) (by linarith [adfWander_nonneg xs])

theorem adfPval_le_one (xs : List ℚ) : adfPval xs ≤ 1 := by
  unfold adfPval
  rw [div_le_one (by linarith [adfWander_nonneg xs])]
  linarith [adfWander_nonneg xs]

theorem kpssStat_nonneg (xs : List ℚ) : 0 ≤ kpssStat xs := by
  apply div_nonneg (sqSum_nonneg _)
  exact mul_nonneg (Nat.cast_nonneg _) (sqSum_nonneg _)

theorem one_div_one_add_nonneg {q : ℚ} (hq : 0 ≤ q) : 0 ≤ 1 / (1 + q) := by
  positivity

theorem one_div_one_add_le_one {q : ℚ} (hq : 0 ≤ q) : 1 / (1 + q) ≤ 1 := by
  rw [div_le_one (by linarith)]
  linarith

/-! ### Reduction of the tests on validated input -/

theorem adf_test_ok (s : List Obs)
    (hlen : minLengthFor (autoLags s.length) ≤ s.length)
    (hfin : allFinite s = true) :
    adf_test s = .ok
      { statistic := -(adfWander (finiteVals s)),
        p_value := adfPval (finiteVals s),
        critical_values := adfCriticalValues,
        lags_used := autoLags s.length } := by
  simp [adf_test, adfInvocation, adfuller, not_lt.mpr hlen, hfin]

theorem kpss_test_ok (s : List Obs)
    (hlen : minLengthFor (autoLags s.length) ≤ s.length)
    (hfin : allFinite s = true) :
    kpss_test s = .ok
      { statistic := kpssStat (finiteVals s),
        p_value := 1 / (1 + kpssStat (finiteVals s)),
        critical_values := kpssCriticalValues,
        lags_used := autoLags s.length } := by
  simp [kpss_test, kpssInvocation, kpss, not_lt.mpr hlen, hfin]

/-! ### Claims about the test contracts -/

/-- C4: on a series meeting the length precondition (and the Series
invariant of finite, defined values), both wrappers return a TestResult
whose p-value lies in [0, 1], whose critical-value mapping carries the
three confidence levels, and whose lag count is the automatically chosen
one; the result of each invocation is a single fixed value (immutable once
produced). -/
theorem test_result_contract (s : List Obs)
    (hlen : minLengthFor (autoLags s.length) ≤ s.length)
    (hfin : allFinite s = true) :
    ∃ ra rk : TestResult,
      adf_test s = .ok ra ∧ kpss_test s = .ok rk ∧
      0 ≤ ra.p_value ∧ ra.p_value ≤ 1 ∧
      ra.critical_values = adfCriticalValues ∧
      ra.lags_used = autoLags s.length ∧
      0 ≤ rk.p_value ∧ rk.p_value ≤ 1 ∧
      rk.critical_values = kpssCriticalValues ∧
      rk.lags_used = autoLags s.length ∧
      (∀ ra2, adf_test s = .ok ra2 → ra2 = ra) ∧
      (∀ rk2, kpss_test s = .ok rk2 → rk2 = rk) := by
  refine ⟨_, _, adf_test_ok s hlen hfin, kpss_test_ok s hlen hfin,
    adfPval_nonneg _, adfPval_le_one _, rfl, rfl,
    one_div_one_add_nonneg (kpssStat_nonneg _),
    one_div_one_add_le_one (kpssStat_nonneg _), rfl, rfl, ?_, ?_⟩
  · intro ra2 h2
    rw [adf_test_ok s hlen hfin] at h2
    exact (Except.ok.injEq _ _).mp h2.symm
  · intro rk2 h2
    rw [kpss_test_ok s hlen hfin] at h2
    exact (Except.ok.injEq _ _).mp h2.symm

/-- Witness for C4 at the concrete series [1, 2, 4]. -/
theorem test_result_contract_witness :
    minLengthFor (autoLags ([Obs.val 1, Obs.val 2, Obs.val 4]).length) ≤
      ([Obs.val 1, Obs.val 2, Obs.val 4]).length ∧
    allFinite [Obs.val 1, Obs.val 2, Obs.val 4] = true ∧
    ∃ ra rk : TestResult,
      adf_test [Obs.val 1, Obs.val 2, Obs.val 4] = .ok ra ∧
      kpss_test [Obs.val 1, Obs.val 2, Obs.val 4] = .ok rk ∧
      0 ≤ ra.p_value ∧ ra.p_value ≤ 1 ∧
      ra.critical_values = adfCriticalValues ∧
      ra.lags_used = autoLags ([Obs.val 1, Obs.val 2, Obs.val 4]).length ∧
      0 ≤ rk.p_value ∧ rk.p_value ≤ 1 ∧
      rk.critical_values = kpssCriticalValues ∧
      rk.lags_used = autoLags ([Obs.val 1, Obs.val 2, Obs.val 4]).length ∧
      (∀ ra2, adf_test [Obs.val 1, Obs.val 2, Obs.val 4] = .ok ra2 → ra2 = ra) ∧
      (∀ rk2, kpss_test [Obs.val 1, Obs.val 2, Obs.val 4] = .ok rk2 → rk2 = rk) :=
  ⟨by decide, by decide,
    test_result_contract [Obs.val 1, Obs.val 2, Obs.val 4] (by decide) (by decide)⟩

/-- C5: a series shorter than the minimum required for the chosen lag
order makes both tests fail with InsufficientDataError, and a long-enough
series containing a non-finite value makes both fail with
NonFiniteValueError; in each case the error is the immediate result
surfaced to the caller (no retry, no recovery, no substitute value). -/
theorem error_surfacing (s : List Obs) :
    (s.length < minLengthFor (autoLags s.length) →
      adf_test s = .error .insufficientData ∧
      kpss_test s = .error .insufficientData) ∧
    (minLengthFor (autoLags s.length) ≤ s.length → allFinite s = false →
      adf_test s = .error .nonFiniteValue ∧
      kpss_test s = .error .nonFiniteValue) := by
  constructor
  · intro short
    constructor
    · simp [adf_test, adfInvocation, adfuller, short]
    · simp [kpss_test, kpssInvocation, kpss, short]
  · intro hlen hfin
    constructor
    · simp [adf_test, adfInvocation, adfuller, not_lt.mpr hlen, hfin]
    · simp [kpss_test, kpssInvocation, kpss, not_lt.mpr hlen, hfin]

/-- Witness for C5: the length-1 series [1] is below the minimum and gets
InsufficientDataError from both tests; the length-3 series with a NaN gets
NonFiniteValueError from both. -/
theorem error_surfacing_witness :
    (adf_test [Obs.val 1] = .error .insufficientData ∧
      kpss_test [Obs.val 1] = .error .insufficientData) ∧
    (adf_test [Obs.val 1, Obs.nan, Obs.val 2] = .error .nonFiniteValue ∧
      kpss_test [Obs.val 1, Obs.nan, Obs.val 2] = .error .nonFiniteValue) :=
  ⟨(error_surfacing [Obs.val 1]).1 (by decide),
    (error_surfacing [Obs.val 1, Obs.nan, Obs.val 2]).2 (by decide) (by decide)⟩

/-! ### Constant series -/

theorem allFinite_replicate_val (n : ℕ) (c : ℚ) :
    allFinite (List.replicate n (Obs.val c)) = true := by
  simp [allFinite, Obs.finite?]

theorem finiteVals_replicate_val (n : ℕ) (c : ℚ) :
    finiteVals (List.replicate n (Obs.val c)) = List.replicate n c := by
  induction n with
  | zero => rfl
  | succ m ih =>
    rw [List.replicate_succ, List.replicate_succ, finiteVals,
      List.filterMap_cons]
    simp only [Obs.finite?]
    rw [← finiteVals, ih]

theorem listMean_replicate (n : ℕ) (c : ℚ) (hn : n ≠ 0) :
    listMean (List.replicate n c) = c := by
  have hcast : (n : ℚ) ≠ 0 := Nat.cast_ne_zero.mpr hn
  rw [listMean, List.sum_replicate, nsmul_eq_mul, List.length_replicate,
    mul_comm (n : ℚ) c, mul_div_assoc, div_self hcast, mul_one]

theorem demean_replicate (n : ℕ) (c : ℚ) (hn : n ≠ 0) :
    demean (List.replicate n c) = List.replicate n 0 := by
  simp [demean, listMean_replicate n c hn, List.map_replicate]

theorem sqSum_replicate_zero (n : ℕ) : sqSum (List.replicate n (0 : ℚ)) = 0 := by
  simp [sqSum, List.map_replicate, List.sum_replicate]

theorem cumSums_replicate_zero (n : ℕ) :
    cumSums (List.replicate n (0 : ℚ)) = List.replicate n 0 := by
  have key : ∀ m : ℕ, List.scanl (· + ·) (0 : ℚ) (List.replicate m 0) =
      List.replicate (m + 1) 0 := by
    intro m
    induction m with
    | zero => rfl
    | succ k ih =>
      rw [List.replicate_succ, List.scanl_cons, add_zero, ih]
      simp [List.replicate_succ]
  simp [cumSums, key n, List.replicate_succ]

theorem adfPval_replicate (n : ℕ) (c : ℚ) (hn : n ≠ 0) :
    adfPval (List.replicate n c) = 0 := by
  have hr : adfWander (List.replicate n c) = 0 := by
    rw [adfWander, demean_replicate n c hn, sqSum_replicate_zero, zero_div]
  rw [adfPval, hr, zero_div]

theorem kpssStat_replicate (n : ℕ) (c : ℚ) (hn : n ≠ 0) :
    kpssStat (List.replicate n c) = 0 := by
  rw [kpssStat, demean_replicate n c hn, cumSums_replicate_zero,
    sqSum_replicate_zero, zero_div]

theorem length_precondition_of_three_le {n : ℕ} (hn : 3 ≤ n) :
    minLengthFor (autoLags n) ≤ n := by
  have h := Nat.min_le_right 12 (n / 10)
  rw [minLengthFor, autoLags]
  omega

/-- C7: on every constant series meeting the length precondition, the ADF
test rejects its unit-root null (p-value ≤ α) and the KPSS test does not
reject its stationarity null (p-value > α): both indicate stationarity,
for any significance threshold 0 ≤ α < 1. -/
theorem constant_series_stationary (c : ℚ) (n : ℕ) (alpha : ℚ)
    (hn : 3 ≤ n) (ha0 : 0 ≤ alpha) (ha1 : alpha < 1) :
    ∃ ra rk : TestResult,
      adf_test (List.replicate n (Obs.val c)) = .ok ra ∧
      kpss_test (List.replicate n (Obs.val c)) = .ok rk ∧
      ra.p_value ≤ alpha ∧ alpha < rk.p_value := by
  have hn0 : n ≠ 0 := by omega
  have hlen : minLengthFor (autoLags (List.replicate n (Obs.val c)).length) ≤
      (List.replicate n (Obs.val c)).length := by
    rw [List.length_replicate]
    exact length_precondition_of_three_le hn
  have hfin := allFinite_replicate_val n c
  refine ⟨_, _, adf_test_ok _ hlen hfin, kpss_test_ok _ hlen hfin, ?_, ?_⟩
  · rw [finiteVals_replicate_val, adfPval_replicate n c hn0]
    exact ha0
  · rw [finiteVals_replicate_val, kpssStat_replicate n c hn0]
    norm_num
    exact ha1

/-- Witness for C7 at the constant series of five 7s with α = 1/20. -/
theorem constant_series_stationary_witness :
    (3 ≤ 5) ∧ (0 ≤ (1/20 : ℚ)) ∧ ((1/20 : ℚ) < 1) ∧
    ∃ ra rk : TestResult,
      adf_test (List.replicate 5 (Obs.val 7)) = .ok ra ∧
      kpss_test (List.replicate 5 (Obs.val 7)) = .ok rk ∧
      ra.p_value ≤ (1/20 : ℚ) ∧ (1/20 : ℚ) < rk.p_value :=
  ⟨by decide, by norm_num, by norm_num,
    constant_series_stationary 7 5 (1/20) (by decide) (by norm_num) (by norm_num)⟩

/-! ### Claims about the wrapper configuration -/

/-- C10: every invocation built by `adf_test` fixes the lag selection to
AIC and every invocation built by `kpss_test` fixes the regression to
constant-only with automatic lag selection; the caller supplies only the
series, so each wrapper's output is exactly the underlying routine applied
to the series with that fixed configuration. -/
theorem wrappers_fix_configuration (ts : List Obs) :
    (adfInvocation ts).autolag = some .AIC ∧
    (adfInvocation ts).timeseries = ts ∧
    (kpssInvocation ts).regression = .c ∧
    (kpssInvocation ts).nlags = .auto ∧
    (kpssInvocation ts).timeseries = ts ∧
    adf_test ts = adfuller ts (some .AIC) ∧
    kpss_test ts = kpss ts .c .auto :=
  ⟨rfl, rfl, rfl, rfl, rfl, rfl, rfl⟩

/-! ### Claims about the iterated pipeline -/

theorem pipelineRun_terminal (alpha : ℚ) : ∀ (fuel k : ℕ) (xs : List ℚ),
    (∃ j, k ≤ j ∧ j < k + fuel ∧ pipelineRun alpha fuel k xs = .stationary j) ∨
    pipelineRun alpha fuel k xs = .exhausted := by
  intro fuel
  induction fuel with
  | zero => intro k xs; right; rfl
  | succ f ih =>
    intro k xs
    by_cases h : verdictOf alpha xs = .Stationary
    · left
      exact ⟨k, le_refl k, by omega, by simp [pipelineRun, h]⟩
    · rcases ih (k + 1) (diff1 xs) with ⟨j, hj1, hj2, hj3⟩ | hex
      · left
        exact ⟨j, by omega, by omega, by simp [pipelineRun, h]; exact hj3⟩
      · right
        simp [pipelineRun, h]
        exact hex

/-- C8: the iterated pipeline always terminates, and for every input
series and every finite iteration budget it ends in one of exactly two
terminal states: a Stationary verdict reached after fewer than `maxIter`
differencing passes, or Exhausted when the budget is used up. -/
theorem pipeline_terminates (alpha : ℚ) (maxIter : ℕ) (xs : List ℚ) :
    (∃ j, j < maxIter ∧ pipeline alpha maxIter xs = .stationary j) ∨
    pipeline alpha maxIter xs = .exhausted := by
  rcases pipelineRun_terminal alpha maxIter 0 xs with ⟨j, -, hj2, hj3⟩ | hex
  · exact Or.inl ⟨j, by omega, hj3⟩
  · exact Or.inr hex

/-! ### Claims about the shift-difference-dropna cell -/

theorem pandasDiff_eq : ∀ (x : ℚ) (xs : List ℚ),
    List.zipWith subEntry (List.map some xs) ((some x :: List.map some xs).dropLast) =
      (diff1 (x :: xs)).map some
  | _, [] => by simp [diff1]
  | x, b :: t => by
    have ih := pandasDiff_eq b t
    simp only [List.map_cons, List.dropLast_cons₂, List.zipWith_cons_cons] at ih ⊢
    rw [ih]
    simp [diff1, subEntry]

theorem pandasDiff_cons (x : ℚ) (xs : List ℚ) :
    pandasDiff (x :: xs) = none :: (diff1 (x :: xs)).map some := by
  have h := pandasDiff_eq x xs
  simp only [pandasDiff, seriesSub, shiftOne, List.map_cons,
    List.zipWith_cons_cons]
  rw [h]
  rfl

/-- C9: differencing a non-empty fully defined column via shift(1) leaves
exactly one undefined entry, at position 0; dropna removes it, so the
series handed to the tests is exactly the first difference: length n − 1
and no missing values. -/
theorem diff_dropna_invariant (x : ℚ) (xs : List ℚ) :
    pandasDiff (x :: xs) = none :: (diff1 (x :: xs)).map some ∧
    (pandasDiff (x :: xs)).countP (fun o => o.isNone) = 1 ∧
    (pandasDiff (x :: xs)).head? = some none ∧
    dropna (pandasDiff (x :: xs)) = diff1 (x :: xs) ∧
    (dropna (pandasDiff (x :: xs))).length = (x :: xs).length - 1 := by
  have h := pandasDiff_cons x xs
  refine ⟨h, ?_, ?_, ?_, ?_⟩
  · rw [h]
    simp [List.countP_cons, List.countP_map, Function.comp]
  · rw [h]; rfl
  · rw [h]
    simp [dropna]
  · rw [h]
    simp [dropna, diff1_length]

end StatKernel
